import Mathlib

/-!
Verification development for the shard-aware proxy transaction subsystem.

The Go sources are shallowly embedded: Go maps become association lists in
deterministic first-insertion order, Go `error` values become `Option` or
`Except` results, byte slices become `List Nat`, and the injected
capabilities (address codec, shard router, observer pool, REST caller) are
gathered in explicit environment records so that the dispatch loops stay
pure and executable.
-/

namespace Proxy

/-- One byte-level hex digit, as in the Go `encoding/hex` package. -/
def hexDigit (c : Char) : Option Nat :=
  if ('0' ≤ c ∧ c ≤ '9') then some (c.toNat - 48)
  else if ('a' ≤ c ∧ c ≤ 'f') then some (c.toNat - 87)
  else if ('A' ≤ c ∧ c ≤ 'F') then some (c.toNat - 55)
  else none

/-- Decoding of a hex character list two digits at a time; an odd-length
input fails, exactly as `hex.DecodeString` does. -/
def hexPairs : List Char → Option (List Nat)
  | [] => some []
  | [_] => none
  | c1 :: c2 :: rest =>
    match hexDigit c1, hexDigit c2, hexPairs rest with
    | some h, some l, some bs => some ((16 * h + l) :: bs)
    | _, _, _ => none

/-- Go `hex.DecodeString`: bytes of a hex string, or failure. -/
def hexDecode (s : String) : Option (List Nat) :=
  hexPairs s.data

/-- Hex decoding straight into an ASCII string (used for the status words
of the outcome data format). -/
def hexDecodeString (s : String) : Option String :=
  (hexDecode s).map (fun bs => String.mk (bs.map (fun b => Char.ofNat b)))

/-- Wire-form transaction, after `data.Transaction` as used by the
transaction processor. -/
structure Transaction where
  nonce : Nat
  value : String
  receiver : String
  sender : String
  gasPrice : Nat
  gasLimit : Nat
  dataField : String
  signature : String
  chainID : String
  version : Nat
  deriving DecidableEq, Repr

/-- The error taxonomy of the proxy, restricted to the constructors the
embedded operations can produce. -/
inductive ProxyError where
  | invalidTxFields (message : String)
  | transport (msg : String)
  | computeShardFailed
  | getObserversFailed
  | sendingRequest
  | noValidTransactionToSend
  | missingObserver
  | cannotGetTransactionStatus
  | operationNotAllowed
  | transactionsNotFoundInPool
  | nonceGapsNotFoundInPool
  deriving DecidableEq, Repr

/-- An entry of the observer pool: `data.NodeData`. -/
structure ObserverNode where
  address : String
  shardId : Nat
  deriving DecidableEq, Repr

/-- Reply of one observer to a POST of `/transaction/send`: the HTTP code,
the transport error (when the call failed below HTTP) and the decoded
transaction hash. -/
structure PostReply where
  code : Nat
  transportErr : Option String
  txHash : String
  deriving DecidableEq, Repr

/-- Reply of one observer to a POST of `/transaction/send-multiple`:
`data.ResponseMultiTransactions` next to the HTTP code and transport
error. -/
structure MultiReply where
  code : Nat
  transportErr : Option String
  numOfTxs : Nat
  txsHashes : List (Nat × String)
  deriving DecidableEq, Repr

/-- Result of `SendTransaction`: HTTP code, transaction hash, error, and
the addresses of the observers that were contacted, in order. -/
structure SendResult where
  code : Nat
  txHash : String
  err : Option ProxyError
  contacted : List String
  deriving DecidableEq, Repr

/-- The injected capabilities of the transaction processor: the address
codec `Decode`, the shard router `ComputeShardId`, the observer pool
`GetObservers`, and the REST caller for the two send paths. -/
structure Env where
  decode : String → Option (List Nat)
  computeShardId : List Nat → Option Nat
  getObservers : Nat → Option (List ObserverNode)
  postReply : String → PostReply
  postMultiReply : String → List Transaction → MultiReply

/-- Source `checkTransactionFields`: decode the sender and the receiver
through the injected codec and the signature through hex; the first
failure is reported as an `ErrInvalidTxFields`.  The source performs no
check of `chainID` or `version`. -/
def checkTransactionFields (decode : String → Option (List Nat)) (tx : Transaction) :
    Option ProxyError :=
  match decode tx.sender with
  | none => some (ProxyError.invalidTxFields "invalid sender address")
  | some _ =>
    match decode tx.receiver with
    | none => some (ProxyError.invalidTxFields "invalid receiver address")
    | some _ =>
      match hexDecode tx.signature with
      | none => some (ProxyError.invalidTxFields "invalid signature hex")
      | some _ => none

/-- The observer loop of source `SendTransaction`: the first reply with
code 200 and no transport error wins; a 404 or 408 reply is skipped; any
other reply is returned at once; exhaustion yields `ErrSendingRequest`.
Each processed entry carries the observer address so that the contacted
set is part of the result. -/
def sendTxLoop : List (String × PostReply) → SendResult
  | [] => ⟨500, "", some ProxyError.sendingRequest, []⟩
  | (a, r) :: rest =>
    if r.code == 200 && r.transportErr.isNone then
      ⟨200, r.txHash, none, [a]⟩
    else if r.code == 404 || r.code == 408 then
      let res := sendTxLoop rest
      ⟨res.code, res.txHash, res.err, a :: res.contacted⟩
    else
      ⟨r.code, "", r.transportErr.map ProxyError.transport, [a]⟩

/-- Source `SendTransaction`: validate the fields, decode the sender,
compute its shard, fetch the observers of that shard and run the dispatch
loop over them in pool order. -/
def SendTransaction (env : Env) (tx : Transaction) : SendResult :=
  match checkTransactionFields env.decode tx with
  | some e => ⟨400, "", some e, []⟩
  | none =>
    match env.decode tx.sender with
    | none => ⟨400, "", some (ProxyError.invalidTxFields "invalid sender address"), []⟩
    | some senderBuff =>
      match env.computeShardId senderBuff with
      | none => ⟨500, "", some ProxyError.computeShardFailed, []⟩
      | some shardId =>
        match env.getObservers shardId with
        | none => ⟨500, "", some ProxyError.getObserversFailed, []⟩
        | some observers =>
          sendTxLoop (observers.map (fun o => (o.address, env.postReply o.address)))

/-- A reply an observer loop skips over: HTTP 404 or 408. -/
def isSkipReply (r : PostReply) : Bool :=
  r.code == 404 || r.code == 408

/-- Restatement of the dispatch decision table in the words of the spec:
the leading skip-class replies are passed over, the first other reply
decides the call (success when it is a 200 with no transport error,
immediate failure otherwise), and exhaustion by skip-class replies alone
yields the `SendingRequest` error.  The contacted observers are the
skipped head plus the deciding one. -/
def sendTxSpec (replies : List (String × PostReply)) : SendResult :=
  match replies.dropWhile (fun p => isSkipReply p.2) with
  | [] =>
    ⟨500, "", some ProxyError.sendingRequest,
      (replies.takeWhile (fun p => isSkipReply p.2)).map Prod.fst⟩
  | (a, r) :: _ =>
    if r.code == 200 && r.transportErr.isNone then
      ⟨200, r.txHash, none,
        (replies.takeWhile (fun p => isSkipReply p.2)).map Prod.fst ++ [a]⟩
    else
      ⟨r.code, "", r.transportErr.map ProxyError.transport,
        (replies.takeWhile (fun p => isSkipReply p.2)).map Prod.fst ++ [a]⟩

/-- Append a transaction to the batch of a shard inside an association
list, creating the entry when absent.  This renders the Go map insertion
`txsMap[senderShardId] = append(txsMap[senderShardId], tx)` with the
deterministic first-insertion key order. -/
def insertAssoc (m : List (Nat × List Transaction)) (k : Nat) (tx : Transaction) :
    List (Nat × List Transaction) :=
  match m with
  | [] => [(k, [tx])]
  | (k2, l) :: rest =>
    if k2 = k then (k2, l ++ [tx]) :: rest else (k2, l) :: insertAssoc rest k tx

/-- One step of the partitioning loop of `getTxsByShardId`: a transaction
whose sender fails to decode or whose shard computation fails is silently
skipped, the others are appended to the batch of their sender shard. -/
def shardStep (env : Env) (m : List (Nat × List Transaction)) (tx : Transaction) :
    List (Nat × List Transaction) :=
  match env.decode tx.sender with
  | none => m
  | some senderBytes =>
    match env.computeShardId senderBytes with
    | none => m
    | some senderShardId => insertAssoc m senderShardId tx

/-- Source `getTxsByShardId`: partition the transactions by the shard of
the decoded sender. -/
def getTxsByShardId (env : Env) (txs : List Transaction) : List (Nat × List Transaction) :=
  txs.foldl (shardStep env) []

/-- Sender shard of a transaction: codec decoding followed by the shard
router. -/
def shardOf (env : Env) (tx : Transaction) : Option Nat :=
  (env.decode tx.sender).bind env.computeShardId

/-- A transaction that survives the per-item validation of
`SendMultipleTransactions`. -/
def isValidTx (env : Env) (tx : Transaction) : Bool :=
  (checkTransactionFields env.decode tx).isNone

/-- First reply of the observers of a shard that is an HTTP 200 with no
transport error, the inner loop of `SendMultipleTransactions`. -/
def firstOkMulti (env : Env) (obs : List ObserverNode) (batch : List Transaction) :
    Option MultiReply :=
  (obs.map (fun o => env.postMultiReply o.address batch)).find?
    (fun r => r.code == 200 && r.transportErr.isNone)

/-- The per-shard loop of `SendMultipleTransactions`. `base` is the count
of transactions of the batches already processed; it rekeys the per-index
hash map of each reply into the global index-keyed map.  A missing
observer list aborts with `ErrMissingObserver` as in the source; a shard
whose observers all fail contributes nothing and the loop continues. -/
def goShards (env : Env) : List (Nat × List Transaction) → Nat → Nat →
    List (Nat × String) → Except ProxyError (Nat × List (Nat × String))
  | [], _, total, hashes => Except.ok (total, hashes)
  | (shardId, batch) :: rest, base, total, hashes =>
    match env.getObservers shardId with
    | none => Except.error ProxyError.missingObserver
    | some obs =>
      match firstOkMulti env obs batch with
      | none => goShards env rest (base + batch.length) total hashes
      | some r =>
        goShards env rest (base + batch.length) (total + r.numOfTxs)
          (hashes ++ r.txsHashes.map (fun p => (base + p.1, p.2)))

/-- Source `SendMultipleTransactions` for the accepted total, with the
merged hash map. The total follows the source: validate and silently drop
invalid transactions, fail with `ErrNoValidTransactionToSend` when none
survive, partition by sender shard and accumulate the `numOfTxs` of the
first successful observer of each shard.  Modelled from the spec: the
returned per-index hash map of each shard reply merged into a global
index-keyed map (the newer processor returning it is represented here only
by its tests). -/
def SendMultipleTransactions (env : Env) (txs : List Transaction) :
    Except ProxyError (Nat × List (Nat × String)) :=
  let txsToSend := txs.filter (isValidTx env)
  if txsToSend.isEmpty then Except.error ProxyError.noValidTransactionToSend
  else goShards env (getTxsByShardId env txsToSend) 0 0 []

/-- Attach to every partition entry the global index base of its batch,
the count of the transactions of the preceding batches. -/
def withBases : Nat → List (Nat × List Transaction) → List (Nat × Nat × List Transaction)
  | _, [] => []
  | base, (shardId, batch) :: rest =>
    (base, shardId, batch) :: withBases (base + batch.length) rest

/-- Accepted count contributed by one positioned batch: the `numOfTxs` of
the first successful observer reply, zero when every observer fails. -/
def contribNum (env : Env) (p : Nat × Nat × List Transaction) : Nat :=
  match env.getObservers p.2.1 with
  | none => 0
  | some obs =>
    match firstOkMulti env obs p.2.2 with
    | none => 0
    | some r => r.numOfTxs

/-- Hash-map contribution of one positioned batch, rekeyed by the global
base of the batch. -/
def contribHashes (env : Env) (p : Nat × Nat × List Transaction) : List (Nat × String) :=
  match env.getObservers p.2.1 with
  | none => []
  | some obs =>
    match firstOkMulti env obs p.2.2 with
    | none => []
    | some r => r.txsHashes.map (fun q => (p.1 + q.1, q.2))

/-- Restatement of `SendMultipleTransactions` in the words of the spec:
drop the invalid transactions, fail when none survive, fail when a shard
of the partition has no observer list, and otherwise pair the sum of the
per-shard accepted counts with the concatenation of the rekeyed per-shard
hash maps. -/
def sendMultipleSpec (env : Env) (txs : List Transaction) :
    Except ProxyError (Nat × List (Nat × String)) :=
  let valid := txs.filter (isValidTx env)
  if valid.isEmpty then Except.error ProxyError.noValidTransactionToSend
  else
    let parts := getTxsByShardId env valid
    if parts.any (fun p => (env.getObservers p.1).isNone) then
      Except.error ProxyError.missingObserver
    else
      Except.ok (((withBases 0 parts).map (contribNum env)).sum,
        ((withBases 0 parts).map (contribHashes env)).flatten)

/-- Source constant `UnknownStatusTx`. -/
def UnknownStatusTx : String := "unknown"

/-- The filtering pass of source `parseTxStatusResponses`: keep, shard by
shard, the statuses different from `"unknown"`, and keep only the shards
left with at least one status. -/
def okResponsesOf (all : List (Nat × List String)) : List (Nat × List String) :=
  all.filterMap (fun p =>
    let kept := p.2.filter (fun s => s != UnknownStatusTx)
    if kept.isEmpty then none else some (p.1, kept))

/-- Source `parseTxStatusResponses`: after dropping the unknown statuses,
more than one shard with remaining statuses is a conflict; a single shard
must agree internally and its status is returned; no shard at all yields
`"unknown"`. -/
def parseTxStatusResponses (all : List (Nat × List String)) : Except ProxyError String :=
  let ok := okResponsesOf all
  if 1 < ok.length then Except.error ProxyError.cannotGetTransactionStatus
  else
    match ok with
    | [] => Except.ok UnknownStatusTx
    | (_, []) :: _ => Except.ok UnknownStatusTx
    | (_, r0 :: rest) :: _ =>
      if (r0 :: rest).all (fun r => r == r0) then Except.ok r0
      else Except.error ProxyError.cannotGetTransactionStatus

/-- Modelled from the spec: the senderAddress-aware reconciliation of
`GetTransactionStatus` (the two-argument form of the processor is present
here only through its tests).  Unknown statuses are dropped; one remaining
per-shard status is returned as is; with several remaining statuses the
call fails unless the sender and destination shards differ, in which case
the status of the destination shard is trusted. -/
def reconcileStatusWithSender (perShard : List (Nat × String))
    (senderShard destShard : Nat) : Except ProxyError String :=
  let ok := perShard.filter (fun p => p.2 != UnknownStatusTx)
  match ok with
  | [] => Except.ok UnknownStatusTx
  | [p] => Except.ok p.2
  | _ =>
    if senderShard = destShard then Except.error ProxyError.cannotGetTransactionStatus
    else
      match ok.find? (fun p => p.1 == destShard) with
      | some p => Except.ok p.2
      | none => Except.error ProxyError.cannotGetTransactionStatus

/-- Return codes of a contract invocation outcome. -/
inductive ReturnCode where
  | okCode
  | functionNotFound
  | functionWrongSignature
  | contractNotFound
  | userError
  | outOfGas
  | accountCollision
  | outOfFunds
  | callStackOverflow
  | contractInvalid
  | executionFailed
  | unknownCode
  deriving DecidableEq, Repr

/-- A log event: `transaction.Events`, with topics as byte strings. -/
structure Event where
  identifier : String
  topics : List String
  dataField : String
  deriving DecidableEq, Repr

/-- The logs attached to a transaction reply: `transaction.ApiLogs`. -/
structure ApiLogs where
  address : String
  events : List Event
  deriving DecidableEq, Repr

/-- A smart contract result, identified by its hash. -/
structure ScResult where
  hash : String
  nonce : Nat
  dataField : String
  returnMessage : String
  deriving DecidableEq, Repr

/-- The slice of `transaction.ApiTransactionResult` the outcome analysis
reads: sender, contract results and logs. -/
structure TxResult where
  sender : String
  scResults : List ScResult
  logs : Option ApiLogs
  deriving DecidableEq, Repr

/-- Parsed outcome of a contract invocation. -/
structure Outcome where
  returnCode : ReturnCode
  returnMessage : String
  values : List String
  deriving DecidableEq, Repr

/-- Status-word table of the spec, keyed by the ASCII text of the first
hex chunk. -/
def returnCodeOfStatusWord (w : String) : ReturnCode :=
  if w = "ok" then ReturnCode.okCode
  else if w = "function not found" then ReturnCode.functionNotFound
  else if w = "wrong signature for function" then ReturnCode.functionWrongSignature
  else if w = "contract not found" then ReturnCode.contractNotFound
  else if w = "user error" then ReturnCode.userError
  else if w = "out of gas" then ReturnCode.outOfGas
  else if w = "account collision" then ReturnCode.accountCollision
  else if w = "out of funds" then ReturnCode.outOfFunds
  else if w = "call stack overflow" then ReturnCode.callStackOverflow
  else if w = "contract invalid" then ReturnCode.contractInvalid
  else if w = "execution failed" then ReturnCode.executionFailed
  else ReturnCode.unknownCode

/-- Split a character list at every occurrence of a separator character,
with the semantics of `strings.Split`: the empty input yields one empty
chunk, and separators at the edges yield empty chunks. -/
def splitAtChar (c : Char) : List Char → List (List Char)
  | [] => [[]]
  | x :: xs =>
    if x = c then [] :: splitAtChar c xs
    else
      match splitAtChar c xs with
      | [] => [[x]]
      | h :: t => (x :: h) :: t

/-- Modelled from the spec: the return-data format of the outcome, a
leading `@`, a hex-encoded status word, then optional `@`-separated hex
chunks.  Yields the decoded status word and the chunks that follow it. -/
def parseReturnData (s : String) : Option (String × List String) :=
  match (splitAtChar '@' s.data).map (fun l => String.mk l) with
  | "" :: statusHex :: rest =>
    match hexDecodeString statusHex with
    | some w => some (w, rest)
    | none => none
  | _ => none

/-- The warning text of the too-much-gas write log. -/
def tooMuchGasMsg : String := "@too much gas provided for processing"

/-- First topic of an event, empty when the event has no topic. -/
def ev1Topic (e : Event) : String :=
  e.topics.headD ""

/-- Modelled from the spec: `ParseResultOutcome` of the results package
(the package is present here only through its tests).  Precedence, first
match wins: easily-found return data of a contract result; a signalError
event whose first topic is the message, whose code is UserError and whose
data chunks past the status token are the values; a writeLog event whose
first topic equals the sender; a writeLog event carrying the too-much-gas
warning; otherwise no outcome. -/
def ParseResultOutcome (tx : TxResult) : Option Outcome :=
  match tx.scResults.find? (fun r => (parseReturnData r.dataField).isSome) with
  | some r =>
    match parseReturnData r.dataField with
    | some (w, vals) => some ⟨returnCodeOfStatusWord w, r.returnMessage, vals⟩
    | none => none
  | none =>
    match tx.logs with
    | none => none
    | some lg =>
      match lg.events.find? (fun e => e.identifier == "signalError") with
      | some ev =>
        some ⟨ReturnCode.userError, ev.topics.headD "",
          match parseReturnData ev.dataField with
          | some (_, vals) => vals
          | none => []⟩
      | none =>
        match lg.events.find?
            (fun e => e.identifier == "writeLog" && ev1Topic e == tx.sender) with
        | some ev =>
          some ⟨ReturnCode.okCode, "",
            match parseReturnData ev.dataField with
            | some (_, vals) => vals
            | none => []⟩
        | none =>
          match lg.events.find?
              (fun e => e.identifier == "writeLog"
                && (ev1Topic e).startsWith tooMuchGasMsg) with
          | some ev => some ⟨ReturnCode.okCode, ev1Topic ev, []⟩
          | none => none

/-- Deduplicating accumulation of a contract result: appended only when no
already-kept result carries the same hash. -/
def addScResult (acc : List ScResult) (r : ScResult) : List ScResult :=
  if acc.any (fun q => q.hash == r.hash) then acc else acc ++ [r]

/-- Modelled from the spec: the merge of the `ScResults` sequences of the
two shards of a cross-shard transaction, a set union keyed by the result
hash. -/
def mergeScResults (xs ys : List ScResult) : List ScResult :=
  (xs ++ ys).foldl addScResult []

/-- A wrapped mempool transaction: a free-form property map. -/
def WrappedTx := List (String × String)
deriving instance DecidableEq, Repr for WrappedTx

/-- The three disjoint sequences of a mempool view. -/
structure TransactionsPool where
  regular : List WrappedTx
  scrs : List WrappedTx
  rewards : List WrappedTx
  deriving DecidableEq, Repr

/-- Reply of one observer to a mempool GET, carrying the fields of the
pool family of endpoints next to the HTTP code and the transport error. -/
structure PoolReply where
  code : Nat
  transportErr : Option String
  pool : TransactionsPool
  senderTxs : List WrappedTx
  lastNonce : Nat
  gaps : List (Nat × Nat)
  deriving DecidableEq, Repr

/-- Environment of the mempool entry points: shard set, observer pool,
address codec, shard router and the REST caller. -/
structure PoolEnv where
  shardIDs : List Nat
  getObservers : Nat → Option (List ObserverNode)
  decode : String → Option (List Nat)
  computeShardId : List Nat → Option Nat
  poolReply : String → String → PoolReply

/-- Whether a pool view is empty in all three sequences. -/
def poolIsEmpty (p : TransactionsPool) : Bool :=
  p.regular.isEmpty && p.scrs.isEmpty && p.rewards.isEmpty

/-- First observer reply that is an HTTP 200 with no transport error,
together with the upstream calls performed along the way. -/
def poolLoop (env : PoolEnv) (path : String) :
    List ObserverNode → Option PoolReply × List (String × String)
  | [] => (none, [])
  | o :: rest =>
    let r := env.poolReply o.address path
    if r.code == 200 && r.transportErr.isNone then (some r, [(o.address, path)])
    else
      let res := poolLoop env path rest
      (res.1, (o.address, path) :: res.2)

/-- Observers of the shard owning a sender address: codec, router, pool. -/
def senderShardObservers (env : PoolEnv) (sender : String) : Option (List ObserverNode) :=
  ((env.decode sender).bind env.computeShardId).bind env.getObservers

/-- Modelled from the spec: `GetTransactionsPool` (the mempool processor
is present here only through its tests).  Gated by the mempool feature
flag; when enabled it fans out to one observer per shard, concatenates the
three sequences of the successful replies, and fails with
`TransactionsNotFoundInPool` on an empty merge.  The second component
lists the upstream calls performed. -/
def GetTransactionsPool (flag : Bool) (env : PoolEnv) (fields : String) :
    Except ProxyError TransactionsPool × List (String × String) :=
  if !flag then (Except.error ProxyError.operationNotAllowed, [])
  else
    let path := "/transaction/pool?fields=" ++ fields
    let obs1 := env.shardIDs.filterMap (fun sid => (env.getObservers sid).bind List.head?)
    let calls := obs1.map (fun o => (o.address, path))
    let pools := (obs1.map (fun o => env.poolReply o.address path)).filterMap
      (fun r => if r.code == 200 && r.transportErr.isNone then some r.pool else none)
    let merged : TransactionsPool :=
      ⟨(pools.map TransactionsPool.regular).flatten,
       (pools.map TransactionsPool.scrs).flatten,
       (pools.map TransactionsPool.rewards).flatten⟩
    if poolIsEmpty merged then (Except.error ProxyError.transactionsNotFoundInPool, calls)
    else (Except.ok merged, calls)

/-- Modelled from the spec: `GetTransactionsPoolForShard`, gated by the
mempool feature flag; when enabled it walks the observers of the shard and
returns the first non-empty pool, failing with `TransactionsNotFoundInPool`
when every observer yields an empty one. -/
def GetTransactionsPoolForShard (flag : Bool) (env : PoolEnv) (shardId : Nat)
    (fields : String) : Except ProxyError TransactionsPool × List (String × String) :=
  if !flag then (Except.error ProxyError.operationNotAllowed, [])
  else
    match env.getObservers shardId with
    | none => (Except.error ProxyError.getObserversFailed, [])
    | some obs =>
      let path := "/transaction/pool?shard-id=" ++ toString shardId ++ "&fields=" ++ fields
      let res := poolLoop env path obs
      match res.1 with
      | some r =>
        if poolIsEmpty r.pool then (Except.error ProxyError.transactionsNotFoundInPool, res.2)
        else (Except.ok r.pool, res.2)
      | none => (Except.error ProxyError.transactionsNotFoundInPool, res.2)

/-- Modelled from the spec: `GetTransactionsPoolForSender`, gated by the
mempool feature flag; when enabled it resolves the sender shard and
queries its observers, failing with `TransactionsNotFoundInPool` on an
empty sender pool. -/
def GetTransactionsPoolForSender (flag : Bool) (env : PoolEnv) (sender fields : String) :
    Except ProxyError (List WrappedTx) × List (String × String) :=
  if !flag then (Except.error ProxyError.operationNotAllowed, [])
  else
    match senderShardObservers env sender with
    | none => (Except.error ProxyError.computeShardFailed, [])
    | some obs =>
      let path := "/transaction/pool?by-sender=" ++ sender ++ "&fields=" ++ fields
      let res := poolLoop env path obs
      match res.1 with
      | some r =>
        if r.senderTxs.isEmpty then (Except.error ProxyError.transactionsNotFoundInPool, res.2)
        else (Except.ok r.senderTxs, res.2)
      | none => (Except.error ProxyError.transactionsNotFoundInPool, res.2)

/-- Modelled from the spec: `GetLastPoolNonceForSender`, gated by the
mempool feature flag; a zero nonce is a valid reply, not an error. -/
def GetLastPoolNonceForSender (flag : Bool) (env : PoolEnv) (sender : String) :
    Except ProxyError Nat × List (String × String) :=
  if !flag then (Except.error ProxyError.operationNotAllowed, [])
  else
    match senderShardObservers env sender with
    | none => (Except.error ProxyError.computeShardFailed, [])
    | some obs =>
      let path := "/transaction/pool/last-nonce?by-sender=" ++ sender
      let res := poolLoop env path obs
      match res.1 with
      | some r => (Except.ok r.lastNonce, res.2)
      | none => (Except.error ProxyError.transactionsNotFoundInPool, res.2)

/-- Modelled from the spec: `GetTransactionsPoolNonceGapsForSender`,
gated by the mempool feature flag; absent gaps fail with
`NonceGapsNotFoundInPool`. -/
def GetTransactionsPoolNonceGapsForSender (flag : Bool) (env : PoolEnv) (sender : String) :
    Except ProxyError (List (Nat × Nat)) × List (String × String) :=
  if !flag then (Except.error ProxyError.operationNotAllowed, [])
  else
    match senderShardObservers env sender with
    | none => (Except.error ProxyError.computeShardFailed, [])
    | some obs =>
      let path := "/transaction/pool/nonce-gaps?by-sender=" ++ sender
      let res := poolLoop env path obs
      match res.1 with
      | some r =>
        if r.gaps.isEmpty then (Except.error ProxyError.nonceGapsNotFoundInPool, res.2)
        else (Except.ok r.gaps, res.2)
      | none => (Except.error ProxyError.nonceGapsNotFoundInPool, res.2)

/-- Observable outcome of the GetValueForKey HTTP handler: either a
direct JSON response with a status, or the facade invocation that it
performs. -/
inductive KeyHandlerOutcome where
  | responded (status : Nat) (body : String)
  | facadeCalled (addr key : String)
  deriving DecidableEq, Repr

/-- Source `GetValueForKey` handler: guards the address parameter, then
guards it a second time where the intended guard of the key parameter
stands (the source checks `addr` again and reports the empty-key message),
then invokes the facade with the address and the key. -/
def GetValueForKey (addr key : String) : KeyHandlerOutcome :=
  if addr = "" then
    KeyHandlerOutcome.responded 400 "cannot get value for key: empty address"
  else if addr = "" then
    KeyHandlerOutcome.responded 400 "cannot get value for key: empty key"
  else KeyHandlerOutcome.facadeCalled addr key

/-- Observable outcome of a vm-value handler: either an error response
with a status, or the facade invocation with the decoded arguments. -/
inductive VmValueOutcome where
  | responded (status : Nat) (errMsg : String)
  | facadeCalled (resType scAddress funcName : String) (args : List (List Nat))
  deriving DecidableEq, Repr

/-- The argument-decoding loop of source `vmValueFromAccount`: decode the
arguments as hex in order and fail at the first invalid one, naming it. -/
def decodeVmArgs : List String → Except String (List (List Nat))
  | [] => Except.ok []
  | a :: rest =>
    match hexDecode a with
    | none => Except.error a
    | some b =>
      match decodeVmArgs rest with
      | Except.error x => Except.error x
      | Except.ok bs => Except.ok (b :: bs)

/-- Source `vmValueFromAccount`, shared by the hex, string and int
variants of the vm-value endpoints: an argument that is not valid hex
yields an HTTP 400 response naming it (the source wraps the name in
quotes), and only a fully decoded argument list reaches the facade
`GetVmValue`. -/
def vmValueFromAccount (resType scAddress funcName : String) (args : List String) :
    VmValueOutcome :=
  match decodeVmArgs args with
  | Except.error a => VmValueOutcome.responded 400 (a ++ " is not a valid hex string")
  | Except.ok argsBuff => VmValueOutcome.facadeCalled resType scAddress funcName argsBuff

/-- A wire transaction with decodable fields, used to exercise the send
paths on concrete data. -/
def tx1 : Transaction :=
  ⟨0, "0", "DEADBEEF", "DEADBEEF", 0, 0, "", "", "chain", 1⟩

/-- Concrete environment: shard 0 holds two observers, the first replies
404 and the second replies 200 with a hash. -/
def env1 : Env where
  decode := hexDecode
  computeShardId := fun _ => some 0
  getObservers := fun _ => some [⟨"o1", 0⟩, ⟨"o2", 0⟩]
  postReply := fun a => if a = "o1" then ⟨404, none, ""⟩ else ⟨200, none, "HASH123"⟩
  postMultiReply := fun _ _ => ⟨200, none, 0, []⟩

/-- A transaction whose chainID is empty and whose version is zero, while
its addresses and signature decode. -/
def txNoChain : Transaction :=
  ⟨0, "0", "00", "00", 0, 0, "", "", "", 0⟩

/-- Concrete environment with a single healthy observer that accepts
whatever is posted. -/
def env4 : Env where
  decode := hexDecode
  computeShardId := fun _ => some 0
  getObservers := fun _ => some [⟨"obs1", 0⟩]
  postReply := fun _ => ⟨200, none, "h1"⟩
  postMultiReply := fun _ _ => ⟨200, none, 1, [(0, "h1")]⟩

/-- Concrete environment whose shard router always fails. -/
def env9 : Env where
  decode := hexDecode
  computeShardId := fun _ => none
  getObservers := fun _ => some [⟨"obs1", 0⟩]
  postReply := fun _ => ⟨200, none, "h1"⟩
  postMultiReply := fun _ _ => ⟨200, none, 1, [(0, "h1")]⟩

/-- A validating transaction for the unroutable-sender scenario. -/
def tx9 : Transaction :=
  ⟨0, "0", "00", "00", 0, 0, "", "", "chain", 1⟩

/-- The signal-error event of the results package test: one topic and a
user-error data payload. -/
def evSig : Event :=
  ⟨"signalError", ["something happened"], "@75736572206572726f72@07"⟩

/-- The transaction reply of the signal-error scenario: no contract
results, logs holding the single signal-error event. -/
def txSig : TxResult :=
  ⟨"", [], some ⟨"erd1qyu5wthldzr8wx5c9ucg8kjagg0jfs53s8nr3zpz3hypefsdd8ssycr6th", [evSig]⟩⟩

/-- Contract results of the destination shard of the merge scenario. -/
def scrXs : List ScResult := [⟨"scHash1", 42, "", ""⟩, ⟨"scHash2", 43, "", ""⟩]

/-- Contract results of the source shard of the merge scenario, overlapping
the destination on one hash. -/
def scrYs : List ScResult := [⟨"scHash2", 43, "", ""⟩, ⟨"scHash3", 44, "", ""⟩]

/-- Claim C2 helper: the source dispatch loop of `SendTransaction` equals
its decision-table restatement. -/
theorem sendTxLoop_eq_spec (replies : List (String × PostReply)) :
    sendTxLoop replies = sendTxSpec replies := by
  induction replies with
  | nil => rfl
  | cons hd tl ih =>
    obtain ⟨a, r⟩ := hd
    by_cases hok : (r.code == 200 && r.transportErr.isNone) = true
    · have hskip : isSkipReply r = false := by
        have h2 : r.code = 200 ∧ r.transportErr.isNone = true := by
          simpa [Bool.and_eq_true, beq_iff_eq] using hok
        simp [isSkipReply, h2.1]
      simp [sendTxLoop, sendTxSpec, hok, hskip, List.takeWhile_cons, List.dropWhile_cons]
    · by_cases hsk : (r.code == 404 || r.code == 408) = true
      · have hskip : isSkipReply r = true := hsk
        simp only [sendTxLoop, sendTxSpec, hok, hsk, hskip, if_false, if_true, ih,
          List.takeWhile_cons, List.dropWhile_cons, Bool.false_eq_true]
        cases hrest : tl.dropWhile (fun p => isSkipReply p.2) with
        | nil => simp [hrest]
        | cons q qs =>
          obtain ⟨b, s⟩ := q
          by_cases hq : (s.code == 200 && s.transportErr.isNone) = true
          · simp [hrest, hq]
          · simp [hrest, hq]
      · have hskip : isSkipReply r = false := by
          simpa [isSkipReply] using hsk
        simp [sendTxLoop, sendTxSpec, hok, hsk, hskip, List.takeWhile_cons,
          List.dropWhile_cons]

/-- Claim C2: for a transaction that passes field validation and routes to
a shard with an observer list, `SendTransaction` behaves as the decision
table states: leading 404/408 replies are skipped, the first other reply
decides the call — success `(200, txHash)` for a 200 with no transport
error, the reply status and error otherwise — no later observer is
contacted, and exhaustion by skip-class replies yields the
`SendingRequest` error. -/
theorem sendTransaction_dispatchOrder (env : Env) (tx : Transaction)
    (senderBuff : List Nat) (shardId : Nat) (observers : List ObserverNode)
    (hval : checkTransactionFields env.decode tx = none)
    (hdec : env.decode tx.sender = some senderBuff)
    (hshard : env.computeShardId senderBuff = some shardId)
    (hobs : env.getObservers shardId = some observers) :
    SendTransaction env tx =
      sendTxSpec (observers.map (fun o => (o.address, env.postReply o.address))) := by
  simp only [SendTransaction, hval, hdec, hshard, hobs]
  exact sendTxLoop_eq_spec _

/-- Claim C2 witness: the concrete two-observer environment where the
first observer replies 404 and the second succeeds. -/
theorem sendTransaction_dispatchOrder_witness :
    SendTransaction env1 tx1 =
      sendTxSpec (([⟨"o1", 0⟩, ⟨"o2", 0⟩] : List ObserverNode).map
        (fun o => (o.address, env1.postReply o.address))) :=
  sendTransaction_dispatchOrder env1 tx1 [222, 173, 190, 239] 0
    ([⟨"o1", 0⟩, ⟨"o2", 0⟩] : List ObserverNode) rfl rfl rfl rfl

/-- Claim C1 counterexample: two shards report the same non-unknown
status `"executed"` — the responding upstreams agree — yet
`parseTxStatusResponses` returns the `CannotGetTransactionStatus` error
instead of the agreed status. -/
theorem txStatusAgreement_counterexample :
    (∀ p ∈ [((0 : Nat), ["executed"]), (1, ["executed"])], ∀ s ∈ p.2, s = "executed")
    ∧ parseTxStatusResponses [(0, ["executed"]), (1, ["executed"])] =
        Except.error ProxyError.cannotGetTransactionStatus := by
  constructor
  · decide
  · rfl

/-- Claim C1 amended: after dropping the `"unknown"` statuses, a single
shard whose statuses agree yields the agreed status; statuses remaining
on two or more shards — agreeing or not — without a sender address yield
the `CannotGetTransactionStatus` error; and on the sender-aware path
(modelled from the spec) a sender shard different from the destination
shard lets the destination-shard status win. -/
theorem txStatusReconciliation (all : List (Nat × List String)) (shard : Nat)
    (r0 : String) (rest : List String) (perShard : List (Nat × String))
    (q1 q2 : Nat × String) (qs : List (Nat × String))
    (senderShard destShard : Nat) (dstStatus : String) :
    (okResponsesOf all = [(shard, r0 :: rest)] → (∀ s ∈ rest, s = r0) →
      parseTxStatusResponses all = Except.ok r0)
    ∧ (1 < (okResponsesOf all).length →
      parseTxStatusResponses all = Except.error ProxyError.cannotGetTransactionStatus)
    ∧ (senderShard ≠ destShard →
      perShard.filter (fun p => p.2 != UnknownStatusTx) = q1 :: q2 :: qs →
      (q1 :: q2 :: qs).find? (fun p => p.1 == destShard) = some (destShard, dstStatus) →
      reconcileStatusWithSender perShard senderShard destShard = Except.ok dstStatus) := by
  refine ⟨?_, ?_, ?_⟩
  · intro hok hagree
    rw [parseTxStatusResponses, hok]
    have hall : (r0 :: rest).all (fun r => r == r0) = true := by
      simp only [List.all_eq_true, beq_iff_eq]
      intro s hs
      rcases List.mem_cons.mp hs with h | h
      · exact h
      · exact hagree s h
    simp [hall]
  · intro hlen
    rw [parseTxStatusResponses]
    simp [hlen]
  · intro hne hfilter hfind
    rw [reconcileStatusWithSender, hfilter]
    simp [hne, hfind]

/-- Claim C1 witness: a single agreeing shard yields its status, two
shards yield the conflict error, and the sender-aware path trusts the
destination shard of a cross-shard transaction. -/
theorem txStatusReconciliation_witness :
    parseTxStatusResponses [(0, ["executed", "executed"])] = Except.ok "executed"
    ∧ parseTxStatusResponses [(0, ["executed"]), (1, ["invalid"])] =
        Except.error ProxyError.cannotGetTransactionStatus
    ∧ reconcileStatusWithSender [(0, "executed"), (1, "invalid")] 0 1 =
        Except.ok "invalid" := by
  refine ⟨?_, ?_, ?_⟩
  · exact (txStatusReconciliation [(0, ["executed", "executed"])] 0 "executed"
      ["executed"] [] (0, "") (0, "") [] 0 0 "").1 rfl (by decide)
  · exact (txStatusReconciliation [(0, ["executed"]), (1, ["invalid"])] 0 "" [] []
      (0, "") (0, "") [] 0 0 "").2.1 (by decide)
  · exact (txStatusReconciliation [] 0 "" [] [(0, "executed"), (1, "invalid")]
      (0, "executed") (1, "invalid") [] 0 1 "invalid").2.2 (by decide) rfl rfl

/-- Claim C4: the source `checkTransactionFields` accepts a transaction
whose chainID is empty and whose version is zero, so `SendTransaction`
dispatches it to an observer (here contacting `obs1` and returning its
200 reply) instead of rejecting it with an `InvalidTxFields` error at
HTTP 400 as the spec and the repository tests require. -/
theorem chainIDVersionNotChecked :
    checkTransactionFields hexDecode txNoChain = none
    ∧ txNoChain.chainID = "" ∧ txNoChain.version = 0
    ∧ SendTransaction env4 txNoChain = ⟨200, "h1", none, ["obs1"]⟩ :=
  ⟨rfl, rfl, rfl, rfl⟩

/-- Claim C8: the source `GetValueForKey` handler guards the address
parameter twice instead of guarding the key, so a request with a
non-empty address and an empty key reaches the facade instead of failing
with the EmptyKey error at HTTP 400. -/
theorem getValueForKey_emptyKeyReachesFacade :
    GetValueForKey "addr1" "" = KeyHandlerOutcome.facadeCalled "addr1" "" := by
  rfl

/-- Claim C10 helper: the argument-decoding loop of `vmValueFromAccount`
fails at some invalid argument whenever one is present. -/
theorem decodeVmArgs_errorOfMem (args : List String)
    (h : ∃ x ∈ args, hexDecode x = none) :
    ∃ x, x ∈ args ∧ hexDecode x = none ∧ decodeVmArgs args = Except.error x := by
  induction args with
  | nil => simp at h
  | cons a rest ih =>
    cases ha : hexDecode a with
    | none =>
      exact ⟨a, List.mem_cons_self a rest, ha, by simp [decodeVmArgs, ha]⟩
    | some b =>
      obtain ⟨x, hx, hxnone⟩ := h
      rcases List.mem_cons.mp hx with hxa | hxrest
      · rw [hxa, ha] at hxnone
        exact absurd hxnone (by simp)
      · obtain ⟨y, hy, hynone, heq⟩ := ih ⟨x, hxrest, hxnone⟩
        exact ⟨y, List.mem_cons_of_mem a hy, hynone, by simp [decodeVmArgs, ha, heq]⟩

/-- Claim C10: for a vm-value request of any variant whose argument list
holds a string that is not valid hex, the handler responds with HTTP 400
naming the offending argument and never invokes the facade `GetVmValue`. -/
theorem vmValue_invalidHexArg (resType scAddress funcName : String)
    (args : List String) (h : ∃ x ∈ args, hexDecode x = none) :
    ∃ x, x ∈ args ∧ hexDecode x = none
      ∧ vmValueFromAccount resType scAddress funcName args =
          VmValueOutcome.responded 400 (x ++ " is not a valid hex string") := by
  obtain ⟨x, hx, hxnone, heq⟩ := decodeVmArgs_errorOfMem args h
  exact ⟨x, hx, hxnone, by rw [vmValueFromAccount, heq]⟩

/-- Claim C10 witness: the argument list `["6f6b", "zz"]` of a hex-variant
request contains the invalid argument `"zz"`, and the handler responds
400 naming it. -/
theorem vmValue_invalidHexArg_witness :
    ∃ x, x ∈ ["6f6b", "zz"] ∧ hexDecode x = none
      ∧ vmValueFromAccount "hex" "sc" "fn" ["6f6b", "zz"] =
          VmValueOutcome.responded 400 (x ++ " is not a valid hex string") :=
  vmValue_invalidHexArg "hex" "sc" "fn" ["6f6b", "zz"] ⟨"zz", by decide, rfl⟩

/-- Claim C7: with the mempool feature flag disabled, each of the five
mempool entry points returns the `OperationNotAllowed` error and its list
of performed upstream calls is empty, whatever the environment and the
arguments. -/
theorem mempoolDisabledGate (env : PoolEnv) (fields sender : String) (shardId : Nat) :
    GetTransactionsPool false env fields =
      (Except.error ProxyError.operationNotAllowed, [])
    ∧ GetTransactionsPoolForShard false env shardId fields =
      (Except.error ProxyError.operationNotAllowed, [])
    ∧ GetTransactionsPoolForSender false env sender fields =
      (Except.error ProxyError.operationNotAllowed, [])
    ∧ GetLastPoolNonceForSender false env sender =
      (Except.error ProxyError.operationNotAllowed, [])
    ∧ GetTransactionsPoolNonceGapsForSender false env sender =
      (Except.error ProxyError.operationNotAllowed, []) :=
  ⟨rfl, rfl, rfl, rfl, rfl⟩

/-- Claim C6: when the easily-found return data of the contract results
is absent and the logs hold a signalError event, the outcome parser
returns the UserError code, the first topic of the event as the return
message, and the data chunks past the status token as the values. -/
theorem parseOutcome_signalError (tx : TxResult) (lg : ApiLogs) (ev : Event)
    (t : String) (ts : List String) (w : String) (vals : List String)
    (hsc : tx.scResults.find? (fun r => (parseReturnData r.dataField).isSome) = none)
    (hlogs : tx.logs = some lg)
    (hev : lg.events.find? (fun e => e.identifier == "signalError") = some ev)
    (htop : ev.topics = t :: ts)
    (hdata : parseReturnData ev.dataField = some (w, vals)) :
    ParseResultOutcome tx = some ⟨ReturnCode.userError, t, vals⟩ := by
  rw [ParseResultOutcome, hsc, hlogs]
  simp only [hev, hdata, htop, List.headD_cons, ev1Topic]

/-- Claim C6 witness: the signal-error scenario of the repository test,
an event with identifier signalError, topic `"something happened"` and
data `"@75736572206572726f72@07"`, parses to the UserError outcome with
value chunk `"07"`. -/
theorem parseOutcome_signalError_witness :
    ParseResultOutcome txSig =
      some ⟨ReturnCode.userError, "something happened", ["07"]⟩ :=
  parseOutcome_signalError txSig
    ⟨"erd1qyu5wthldzr8wx5c9ucg8kjagg0jfs53s8nr3zpz3hypefsdd8ssycr6th", [evSig]⟩
    evSig "something happened" [] "user error" ["07"] rfl rfl rfl rfl (by decide)

/-- Claim C5 helper: the elements of a deduplicating fold come from the
accumulator or from the traversed list. -/
theorem mem_foldl_addScResult (l : List ScResult) :
    ∀ acc x, x ∈ l.foldl addScResult acc → x ∈ acc ∨ x ∈ l := by
  induction l with
  | nil => intro acc x hx; exact Or.inl hx
  | cons r tl ih =>
    intro acc x hx
    rcases ih (addScResult acc r) x hx with hacc | htl
    · rw [addScResult] at hacc
      by_cases hany : (acc.any (fun q => q.hash == r.hash)) = true
      · rw [if_pos hany] at hacc
        exact Or.inl hacc
      · rw [if_neg hany] at hacc
        rcases List.mem_append.mp hacc with h | h
        · exact Or.inl h
        · exact Or.inr (List.mem_cons.mpr (Or.inl (List.mem_singleton.mp h)))
    · exact Or.inr (List.mem_cons_of_mem r htl)

/-- Claim C5 helper: a deduplicating fold keeps every accumulator
element. -/
theorem subset_foldl_addScResult (l : List ScResult) :
    ∀ acc x, x ∈ acc → x ∈ l.foldl addScResult acc := by
  induction l with
  | nil => intro acc x hx; exact hx
  | cons r tl ih =>
    intro acc x hx
    refine ih (addScResult acc r) x ?_
    rw [addScResult]
    by_cases hany : (acc.any (fun q => q.hash == r.hash)) = true
    · rw [if_pos hany]; exact hx
    · rw [if_neg hany]; exact List.mem_append.mpr (Or.inl hx)

/-- Claim C5 helper: after a deduplicating fold, every traversed hash is
represented by some kept element. -/
theorem hashCovered_foldl_addScResult (l : List ScResult) :
    ∀ acc x, x ∈ l → ∃ y ∈ l.foldl addScResult acc, y.hash = x.hash := by
  induction l with
  | nil => intro acc x hx; exact absurd hx (List.not_mem_nil x)
  | cons r tl ih =>
    intro acc x hx
    rcases List.mem_cons.mp hx with hxr | hxtl
    · by_cases hany : (acc.any (fun q => q.hash == r.hash)) = true
      · obtain ⟨y, hy, hyh⟩ := List.any_eq_true.mp hany
        refine ⟨y, subset_foldl_addScResult tl (addScResult acc r) y ?_, ?_⟩
        · rw [addScResult, if_pos hany]; exact hy
        · rw [hxr]; exact beq_iff_eq.mp hyh
      · refine ⟨r, subset_foldl_addScResult tl (addScResult acc r) r ?_, by rw [hxr]⟩
        rw [addScResult, if_neg hany]
        exact List.mem_append.mpr (Or.inr (List.mem_singleton.mpr rfl))
    · exact ih (addScResult acc r) x hxtl

/-- Claim C5 helper: a deduplicating fold preserves distinctness of the
kept hashes. -/
theorem nodupHashes_foldl_addScResult (l : List ScResult) :
    ∀ acc, (acc.map ScResult.hash).Nodup →
      ((l.foldl addScResult acc).map ScResult.hash).Nodup := by
  induction l with
  | nil => intro acc h; exact h
  | cons r tl ih =>
    intro acc h
    refine ih (addScResult acc r) ?_
    rw [addScResult]
    by_cases hany : (acc.any (fun q => q.hash == r.hash)) = true
    · rw [if_pos hany]; exact h
    · rw [if_neg hany, List.map_append, List.map_singleton]
      refine List.Nodup.append h (List.nodup_singleton _) ?_
      intro a ha hb
      rw [List.mem_singleton.mp hb] at ha
      obtain ⟨y, hy, hyh⟩ := List.mem_map.mp ha
      have : acc.any (fun q => q.hash == r.hash) = true :=
        List.any_eq_true.mpr ⟨y, hy, beq_iff_eq.mpr hyh⟩
      exact hany this

/-- Claim C5 helper: under hash-injectivity of the inputs, membership in
the merge is membership in the concatenation. -/
theorem mem_mergeScResults (xs ys : List ScResult)
    (hinj : ∀ r ∈ xs ++ ys, ∀ s ∈ xs ++ ys, r.hash = s.hash → r = s) :
    ∀ r, r ∈ mergeScResults xs ys ↔ r ∈ xs ++ ys := by
  intro r
  constructor
  · intro hr
    rcases mem_foldl_addScResult (xs ++ ys) [] r hr with h | h
    · exact absurd h (List.not_mem_nil r)
    · exact h
  · intro hr
    obtain ⟨y, hy, hyh⟩ := hashCovered_foldl_addScResult (xs ++ ys) [] r hr
    have hymem : y ∈ xs ++ ys := by
      rcases mem_foldl_addScResult (xs ++ ys) [] y hy with h | h
      · exact absurd h (List.not_mem_nil y)
      · exact h
    have : y = r := hinj y hymem r hr hyh
    rw [← this]
    exact hy

/-- Claim C5: the cross-shard merge of ScResult sequences is a set union
keyed by the result hash: under hash-injectivity of the inputs the merge
of the sequences of shards X and Y has the same members as the merge of Y
and X, its members are exactly those of the two inputs, and each hash
occurs exactly once in it. -/
theorem mergeScResults_setUnionByHash (xs ys : List ScResult)
    (hinj : ∀ r ∈ xs ++ ys, ∀ s ∈ xs ++ ys, r.hash = s.hash → r = s) :
    (∀ r, r ∈ mergeScResults xs ys ↔ r ∈ mergeScResults ys xs)
    ∧ (∀ r, r ∈ mergeScResults xs ys ↔ (r ∈ xs ∨ r ∈ ys))
    ∧ ((mergeScResults xs ys).map ScResult.hash).Nodup := by
  have hinj2 : ∀ r ∈ ys ++ xs, ∀ s ∈ ys ++ xs, r.hash = s.hash → r = s := by
    intro r hr s hs
    exact hinj r (List.mem_append.mpr (List.mem_append.mp hr).symm)
      s (List.mem_append.mpr (List.mem_append.mp hs).symm)
  refine ⟨?_, ?_, ?_⟩
  · intro r
    rw [mem_mergeScResults xs ys hinj r, mem_mergeScResults ys xs hinj2 r,
      List.mem_append, List.mem_append]
    exact Or.comm
  · intro r
    rw [mem_mergeScResults xs ys hinj r, List.mem_append]
  · exact nodupHashes_foldl_addScResult (xs ++ ys) [] List.nodup_nil

/-- Claim C5 witness: the overlapping contract-result lists of the
repository scenario, hashes scHash1 to scHash3 with scHash2 shared,
merge to the same member set in both orders, cover exactly the inputs and
carry no duplicate hash. -/
theorem mergeScResults_setUnionByHash_witness :
    (∀ r, r ∈ mergeScResults scrXs scrYs ↔ r ∈ mergeScResults scrYs scrXs)
    ∧ (∀ r, r ∈ mergeScResults scrXs scrYs ↔ (r ∈ scrXs ∨ r ∈ scrYs))
    ∧ ((mergeScResults scrXs scrYs).map ScResult.hash).Nodup :=
  mergeScResults_setUnionByHash scrXs scrYs (by decide)

/-- Claim C3 helper: the per-shard loop of `SendMultipleTransactions`
equals its closed form, an error when some partition shard has no
observer list and otherwise the accumulated total and rekeyed hash
concatenation. -/
theorem goShards_eq (env : Env) (parts : List (Nat × List Transaction)) :
    ∀ (base total : Nat) (hashes : List (Nat × String)),
      goShards env parts base total hashes =
        (if parts.any (fun p => (env.getObservers p.1).isNone) then
          Except.error ProxyError.missingObserver
        else
          Except.ok (total + ((withBases base parts).map (contribNum env)).sum,
            hashes ++ ((withBases base parts).map (contribHashes env)).flatten)) := by
  induction parts with
  | nil => intro base total hashes; simp [goShards, withBases]
  | cons p rest ih =>
    obtain ⟨shardId, batch⟩ := p
    intro base total hashes
    cases hobs : env.getObservers shardId with
    | none => simp [goShards, hobs]
    | some obs =>
      cases hfirst : firstOkMulti env obs batch with
      | none =>
        rw [goShards]
        simp only [hobs, hfirst]
        rw [ih]
        by_cases hany : (rest.any (fun p => (env.getObservers p.1).isNone)) = true
        · simp [hany, hobs]
        · simp [hany, hobs, withBases, contribNum, contribHashes, hfirst]
      | some r =>
        rw [goShards]
        simp only [hobs, hfirst]
        rw [ih]
        by_cases hany : (rest.any (fun p => (env.getObservers p.1).isNone)) = true
        · simp [hany, hobs]
        · simp [hany, hobs, withBases, contribNum, contribHashes, hfirst,
            Nat.add_assoc, List.append_assoc]

/-- Claim C3: `SendMultipleTransactions` equals its restatement in the
words of the spec: invalid transactions are silently dropped, an empty
remainder yields the `NoValidTransactionToSend` error, the survivors are
partitioned by sender shard, each shard contributes the `numOfTxs` of its
first 200-OK observer — zero, without aborting, when every observer of
the shard fails — and the result pairs the accumulated total with the
merge of the per-index hash maps into a global index-keyed map. -/
theorem sendMultipleTransactions_eq_spec (env : Env) (txs : List Transaction) :
    SendMultipleTransactions env txs = sendMultipleSpec env txs := by
  rw [SendMultipleTransactions, sendMultipleSpec]
  by_cases hempty : (txs.filter (isValidTx env)).isEmpty = true
  · simp [hempty]
  · simp only [hempty, if_false, Bool.false_eq_true]
    rw [goShards_eq]
    by_cases hany : ((getTxsByShardId env (txs.filter (isValidTx env))).any
        (fun p => (env.getObservers p.1).isNone)) = true
    · simp [hany]
    · simp [hany]

/-- Claim C9 helper: the partition step rewritten through the composed
sender-shard resolution. -/
theorem shardStep_eq (env : Env) (m : List (Nat × List Transaction)) (tx : Transaction) :
    shardStep env m tx =
      (match shardOf env tx with
       | none => m
       | some senderShardId => insertAssoc m senderShardId tx) := by
  rw [shardStep, shardOf]
  cases env.decode tx.sender with
  | none => rfl
  | some b =>
    cases env.computeShardId b with
    | none => rfl
    | some sid => rfl

/-- Claim C9 helper: a batch element of an association-list insertion is
an element of an existing batch or the inserted transaction. -/
theorem mem_batch_insertAssoc (k : Nat) (t : Transaction) :
    ∀ (m : List (Nat × List Transaction)) p x, p ∈ insertAssoc m k t → x ∈ p.2 →
      (∃ q ∈ m, x ∈ q.2) ∨ x = t := by
  intro m
  induction m with
  | nil =>
    intro p x hp hx
    rw [insertAssoc] at hp
    rcases List.mem_singleton.mp hp with rfl
    rcases List.mem_singleton.mp hx with rfl
    exact Or.inr rfl
  | cons hd rest ih =>
    obtain ⟨k2, l⟩ := hd
    intro p x hp hx
    rw [insertAssoc] at hp
    by_cases hk : k2 = k
    · rw [if_pos hk] at hp
      rcases List.mem_cons.mp hp with rfl | hrest
      · rcases List.mem_append.mp hx with hxl | hxt
        · exact Or.inl ⟨(k2, l), List.mem_cons_self _ _, hxl⟩
        · exact Or.inr (List.mem_singleton.mp hxt)
      · exact Or.inl ⟨p, List.mem_cons_of_mem _ hrest, hx⟩
    · rw [if_neg hk] at hp
      rcases List.mem_cons.mp hp with rfl | hrest
      · exact Or.inl ⟨(k2, l), List.mem_cons_self _ _, hx⟩
      · rcases ih p x hrest hx with ⟨q, hq, hxq⟩ | hxt
        · exact Or.inl ⟨q, List.mem_cons_of_mem _ hq, hxq⟩
        · exact Or.inr hxt

/-- Claim C9 helper: a batch element of the partition fold comes from the
accumulator or is a transaction whose sender shard resolved. -/
theorem mem_batch_partitionFold (env : Env) (x : Transaction) :
    ∀ (txs : List Transaction) (acc : List (Nat × List Transaction)) p,
      p ∈ txs.foldl (shardStep env) acc → x ∈ p.2 →
      (∃ q ∈ acc, x ∈ q.2) ∨ (shardOf env x).isSome = true := by
  intro txs
  induction txs with
  | nil => intro acc p hp hx; exact Or.inl ⟨p, hp, hx⟩
  | cons t rest ih =>
    intro acc p hp hx
    rw [List.foldl_cons] at hp
    rcases ih (shardStep env acc t) p hp hx with ⟨q, hq, hxq⟩ | hsome
    · rw [shardStep_eq] at hq
      cases hsh : shardOf env t with
      | none =>
        rw [hsh] at hq
        exact Or.inl ⟨q, hq, hxq⟩
      | some sid =>
        rw [hsh] at hq
        rcases mem_batch_insertAssoc sid t acc q x hq hxq with ⟨q2, hq2, hxq2⟩ | rfl
        · exact Or.inl ⟨q2, hq2, hxq2⟩
        · exact Or.inr (by rw [hsh]; rfl)
    · exact Or.inr hsome

/-- Claim C9: a transaction that passes field validation but whose sender
shard does not resolve is put in no batch of the partition, and
`SendMultipleTransactions` behaves on the list extended with it exactly as
on the remainder: no error is produced for it, it reaches no observer and
it contributes nothing — in particular when no other valid transaction
exists the call returns the pair of zero and the empty hash map. -/
theorem sendMultiple_dropsUnroutableTx (env : Env) (tx : Transaction)
    (txs : List Transaction)
    (hvalid : checkTransactionFields env.decode tx = none)
    (hshard : shardOf env tx = none) :
    (∀ p ∈ getTxsByShardId env (tx :: txs), tx ∉ p.2)
    ∧ SendMultipleTransactions env (tx :: txs) =
        (match txs.filter (isValidTx env) with
         | [] => Except.ok (0, [])
         | _ :: _ => SendMultipleTransactions env txs) := by
  have hval : isValidTx env tx = true := by rw [isValidTx, hvalid]; rfl
  have hpart : ∀ l, getTxsByShardId env (tx :: l) = getTxsByShardId env l := by
    intro l
    rw [getTxsByShardId, getTxsByShardId, List.foldl_cons, shardStep_eq, hshard]
  constructor
  · intro p hp htx
    rcases mem_batch_partitionFold env tx (tx :: txs) [] p hp htx with ⟨q, hq, _⟩ | hsome
    · exact absurd hq (List.not_mem_nil q)
    · rw [hshard] at hsome
      exact absurd hsome (by simp)
  · rw [SendMultipleTransactions]
    simp only [List.filter_cons, hval, if_true]
    cases hfil : txs.filter (isValidTx env) with
    | nil =>
      simp only [List.isEmpty_cons, Bool.false_eq_true, if_false, hpart]
      rfl
    | cons f fs =>
      simp only [List.isEmpty_cons, Bool.false_eq_true, if_false, hpart]
      rw [SendMultipleTransactions, hfil]
      simp

/-- Claim C9 witness: in the environment whose shard router always fails,
the single validating transaction lands in no batch and the call returns
zero accepted transactions with the empty hash map and no error. -/
theorem sendMultiple_dropsUnroutableTx_witness :
    (∀ p ∈ getTxsByShardId env9 [tx9], tx9 ∉ p.2)
    ∧ SendMultipleTransactions env9 [tx9] = Except.ok (0, []) :=
  sendMultiple_dropsUnroutableTx env9 tx9 [] rfl rfl

end Proxy
